import Mathlib

/-!
Shallow embedding of the `GenericAdmissionWebhook` admission plugin
(`plugin/pkg/admission/webhook/admission.go`): rule-gated webhook dispatch,
per-hook call outcomes, and the `Admit` aggregation over a buffered error
channel.  Network and collaborator behaviour (service resolution, REST
client construction, the POST round trip) is supplied per webhook by a
`HookEnv` oracle; the order in which the per-hook goroutines send on the
error channel is an explicit `order` parameter (a permutation of the hook
indices), so that completion-order-dependence of the aggregation can be
stated and settled.
-/

namespace AdmissionWebhook

/-- Projection of `admission.Attributes` to the dimensions consulted by the
rule matcher: API group, API version, resource, operation. -/
structure Attributes where
  apiGroup : String
  apiVersion : String
  resource : String
  operation : String
deriving DecidableEq, Repr

/-- One admission rule: per-dimension lists of literal values, where the
literal `"*"` acts as the wildcard for its dimension. -/
structure Rule where
  apiGroups : List String
  apiVersions : List String
  resources : List String
  operations : List String
deriving DecidableEq, Repr

/-- Modelled from the spec: per-dimension membership test of the rule
matcher (`RuleMatcher` lives in `rules.go`, which is not part of the
excerpted source).  A dimension admits the requested value iff the
dimension's list contains the wildcard `"*"` or the literal value; an
empty list admits nothing. -/
def exactOrWildcard (items : List String) (requested : String) : Bool :=
  items.any (fun item => item == "*" || item == requested)

/-- Modelled from the spec: `RuleMatcher.Matches` — a rule matches a
request iff every dimension (operations, groups, versions, resources)
admits the request's corresponding attribute. -/
def ruleMatches (r : Rule) (attr : Attributes) : Bool :=
  exactOrWildcard r.operations attr.operation &&
  exactOrWildcard r.apiGroups attr.apiGroup &&
  exactOrWildcard r.apiVersions attr.apiVersion &&
  exactOrWildcard r.resources attr.resource

/-- The `for _, r := range h.Rules` loop of `callHook`: logical OR across
the webhook's rules, stopping at the first match. -/
def anyRuleMatches (rules : List Rule) (attr : Attributes) : Bool :=
  rules.any (fun r => ruleMatches r attr)

/-- Service coordinates of a webhook (`h.ClientConfig.Service`). -/
structure ServiceReference where
  nameSpace : String
  name : String
deriving DecidableEq, Repr

/-- Client configuration of a webhook (`h.ClientConfig`): target service
plus the CA bundle anchoring TLS trust.  Byte slices are lists of bytes. -/
structure AdmissionHookClientConfig where
  service : ServiceReference
  caBundle : List Nat
deriving DecidableEq, Repr

/-- A configured webhook (`admissionregistration.ExternalAdmissionHook`):
name, ordered rules, client configuration. -/
structure ExternalAdmissionHook where
  name : String
  rules : List Rule
  clientConfig : AdmissionHookClientConfig
deriving DecidableEq, Repr

/-- Essentials of a `metav1.Status` carried by a denying response. -/
structure Status where
  reason : String
  message : String
deriving DecidableEq, Repr

/-- The decoded inbound review status: `Allowed` plus optional `Result`. -/
structure AdmissionReviewStatus where
  allowed : Bool
  result : Option Status
deriving DecidableEq, Repr

/-- A resolved endpoint URL, reduced to the parts `hookClient` reads. -/
structure Endpoint where
  host : String
  path : String
deriving DecidableEq, Repr

/-- Environment oracle for one webhook call: the result of
`serviceResolver.ResolveEndpoint`, whether `rest.UnversionedRESTClientFor`
fails, and the result of the POST round trip (transport error, or the
decoded review status). -/
structure HookEnv where
  resolve : Except String Endpoint
  clientBuildErr : Option String
  post : Except String AdmissionReviewStatus

/-- The plugin state `callHook`/`hookClient` read: externally supplied
client certificate and key bytes. -/
structure GenericAdmissionWebhook where
  clientCert : List Nat
  clientKey : List Nat
deriving DecidableEq, Repr

/-- The fields of the `rest.Config` literal built by `hookClient`. -/
structure RestConfig where
  host : String
  apiPath : String
  caData : List Nat
  certData : List Nat
  keyData : List Nat
  userAgent : String
  timeoutSeconds : Nat
deriving DecidableEq, Repr

/-- Observable side effects of one `callHook` evaluation. -/
inductive Effect where
  | resolveEndpoint
  | buildClient
  | post
deriving DecidableEq, Repr

/-- The normalized error values `callHook` can return:
`ErrCallingWebhook` (infrastructure failure), the generic
"denied the request without explanation" error, and the
`apierrors.StatusError` built from a denying response's `Result`. -/
inductive HookError where
  | errCallingWebhook (webhookName : String) (reason : String)
  | deniedNoExplanation (webhookName : String)
  | statusError (errStatus : Status)
deriving DecidableEq, Repr

/-- The `err.(*ErrCallingWebhook)` type assertion of `Admit`: exactly the
infrastructure-failure errors succeed it. -/
def HookError.isCallErr : HookError → Bool
  | .errCallingWebhook _ _ => true
  | .deniedNoExplanation _ => false
  | .statusError _ => false

/-- The `Error()` rendering of each error value.  `ErrCallingWebhook` is
always constructed with a non-nil `Reason`, so only that branch of its
`Error()` occurs; a `StatusError` renders its status message. -/
def HookError.message : HookError → String
  | .errCallingWebhook n r =>
      "failed calling admission webhook \"" ++ n ++ "\": " ++ r
  | .deniedNoExplanation n =>
      "admission webhook \"" ++ n ++ "\" denied the request without explanation"
  | .statusError s => s.message

/-- The `hookClient` method: resolve the service endpoint (failure is
returned as-is), build the `rest.Config` with host/path from the resolved
URL, TLS data from the webhook's CA bundle and the plugin's client
cert/key, the constant user agent, and the 30-second timeout, then hand it
to `rest.UnversionedRESTClientFor` (which may fail).  The second component
records which steps ran. -/
def hookClient (a : GenericAdmissionWebhook) (h : ExternalAdmissionHook)
    (env : HookEnv) : Except String RestConfig × List Effect :=
  match env.resolve with
  | .error e => (.error e, [Effect.resolveEndpoint])
  | .ok u =>
      let cfg : RestConfig :=
        { host := u.host
          apiPath := u.path
          caData := h.clientConfig.caBundle
          certData := a.clientCert
          keyData := a.clientKey
          userAgent := "kube-apiserver-admission"
          timeoutSeconds := 30 }
      match env.clientBuildErr with
      | some e => (.error e, [Effect.resolveEndpoint, Effect.buildClient])
      | none => (.ok cfg, [Effect.resolveEndpoint, Effect.buildClient])

/-- The `callHook` method: if no rule matches, return nil having performed
no effect; otherwise build the client (wrapping failure as
`ErrCallingWebhook`), POST the review (wrapping transport failure as
`ErrCallingWebhook`), and map the decoded status — `Allowed` to nil,
denial without `Result` to the generic "without explanation" error, denial
with `Result` to a `StatusError` carrying it. -/
def callHook (a : GenericAdmissionWebhook) (h : ExternalAdmissionHook)
    (env : HookEnv) (attr : Attributes) : Option HookError × List Effect :=
  if anyRuleMatches h.rules attr then
    match hookClient a h env with
    | (.error e, effs) => (some (.errCallingWebhook h.name e), effs)
    | (.ok _cfg, effs) =>
        match env.post with
        | .error e =>
            (some (.errCallingWebhook h.name e), effs ++ [Effect.post])
        | .ok st =>
            if st.allowed then (none, effs ++ [Effect.post])
            else
              match st.result with
              | none =>
                  (some (.deniedNoExplanation h.name), effs ++ [Effect.post])
              | some r => (some (.statusError r), effs ++ [Effect.post])
  else (none, [])

/-- The error value the goroutine for hook index `i` produces (`nil` when
the index is out of range, which cannot happen inside `Admit`). -/
def hookOutcome (a : GenericAdmissionWebhook)
    (hooks : List ExternalAdmissionHook) (envs : Nat → HookEnv)
    (attr : Attributes) (i : Nat) : Option HookError :=
  match hooks.get? i with
  | none => none
  | some h => (callHook a h (envs i) attr).1

/-- What the goroutine for hook index `i` sends on `errCh`: nothing when
`callHook` returned nil, nothing when the error is an `ErrCallingWebhook`
(fail open), otherwise the error itself — at most one send per hook. -/
def channelSend (a : GenericAdmissionWebhook)
    (hooks : List ExternalAdmissionHook) (envs : Nat → HookEnv)
    (attr : Attributes) (i : Nat) : Option HookError :=
  match hookOutcome a hooks envs attr i with
  | none => none
  | some e => if e.isCallErr then none else some e

/-- The contents of `errCh` when `Admit` drains it: the non-call-failure
errors in the order the goroutines sent them, `order` being the send
order over hook indices (a permutation of `List.range hooks.length`). -/
def channelErrors (a : GenericAdmissionWebhook)
    (hooks : List ExternalAdmissionHook) (envs : Nat → HookEnv)
    (attr : Attributes) (order : List Nat) : List HookError :=
  order.filterMap (channelSend a hooks envs attr)

/-- The capacity `Admit` gives `errCh`: `make(chan error, len(hooks))`. -/
def errChCapacity (hooks : List ExternalAdmissionHook) : Nat :=
  hooks.length

/-- Result of one `Admit` invocation: nil, the wrapped listing error, or
the first error drained from `errCh`. -/
inductive AdmitResult where
  | ok
  | listError (msg : String)
  | hookError (e : HookError)
deriving DecidableEq, Repr

/-- The `Admit` method: list the hooks (failure returns the wrapped
listing error immediately), fan out `callHook` per hook, collect the
non-call-failure errors from `errCh` in send order, and return nil when
none were collected, otherwise `errs[0]`. -/
def Admit (a : GenericAdmissionWebhook)
    (listResult : Except String (List ExternalAdmissionHook))
    (envs : Nat → HookEnv) (attr : Attributes) (order : List Nat) :
    AdmitResult :=
  match listResult with
  | .error e => .listError ("failed listing hooks: " ++ e)
  | .ok hooks =>
      match channelErrors a hooks envs attr order with
      | [] => .ok
      | e :: _ => .hookError e

/-- The per-hook effect traces of one `Admit` invocation, indexed in
configuration order: empty when listing fails (no fan-out), otherwise one
trace per configured hook. -/
def AdmitInvocations (a : GenericAdmissionWebhook)
    (listResult : Except String (List ExternalAdmissionHook))
    (envs : Nat → HookEnv) (attr : Attributes) :
    List (Nat × List Effect) :=
  match listResult with
  | .error _ => []
  | .ok hooks =>
      hooks.enum.map (fun p => (p.1, (callHook a p.2 (envs p.1) attr).2))

end AdmissionWebhook

namespace AdmissionWebhook

/-- A rule whose every dimension is the wildcard. -/
def ruleAll : Rule :=
  { apiGroups := ["*"], apiVersions := ["*"], resources := ["*"],
    operations := ["*"] }

/-- Concrete webhook named `"a.example.com"` matching every request. -/
def hookA : ExternalAdmissionHook :=
  { name := "a.example.com", rules := [ruleAll],
    clientConfig :=
      { service := { nameSpace := "default", name := "a" }, caBundle := [1] } }

/-- Concrete webhook named `"b.example.com"` matching every request. -/
def hookB : ExternalAdmissionHook :=
  { name := "b.example.com", rules := [ruleAll],
    clientConfig :=
      { service := { nameSpace := "default", name := "b" }, caBundle := [2] } }

/-- Concrete request attributes. -/
def attr0 : Attributes :=
  { apiGroup := "apps", apiVersion := "v1", resource := "deployments",
    operation := "CREATE" }

/-- Denial status supplied by `hookA`. -/
def sA : Status := { reason := "Forbidden", message := "denied by a" }

/-- Denial status supplied by `hookB`. -/
def sB : Status := { reason := "Forbidden", message := "denied by b" }

/-- A successfully resolved endpoint. -/
def okEndpoint : Endpoint := { host := "10.0.0.1:443", path := "/" }

/-- Environment in which the call succeeds and the webhook denies with
result `s`. -/
def envDeny (s : Status) : HookEnv :=
  { resolve := .ok okEndpoint, clientBuildErr := none,
    post := .ok { allowed := false, result := some s } }

/-- Environments: hook 0 denies with `sA`, every other hook with `sB`. -/
def envsAB : Nat → HookEnv :=
  fun i => if i = 0 then envDeny sA else envDeny sB

/-- Plugin state with concrete client certificate and key bytes. -/
def plugin0 : GenericAdmissionWebhook := { clientCert := [3], clientKey := [4] }

/-- A rule whose every dimension is the empty list: it matches nothing. -/
def ruleNone : Rule :=
  { apiGroups := [], apiVersions := [], resources := [], operations := [] }

/-- Concrete webhook whose single rule matches no request. -/
def hookNoMatch : ExternalAdmissionHook :=
  { name := "never.example.com", rules := [ruleNone],
    clientConfig :=
      { service := { nameSpace := "default", name := "never" },
        caBundle := [9] } }

/-- Environment in which endpoint resolution fails. -/
def envResolveFail : HookEnv :=
  { resolve := .error "no endpoints available", clientBuildErr := none,
    post := .error "unreachable" }

/-- Environment in which the call succeeds and the webhook allows. -/
def envAllow : HookEnv :=
  { resolve := .ok okEndpoint, clientBuildErr := none,
    post := .ok { allowed := true, result := none } }

/-- Environment in which the webhook denies without supplying a result. -/
def envNoExplain : HookEnv :=
  { resolve := .ok okEndpoint, clientBuildErr := none,
    post := .ok { allowed := false, result := none } }


end AdmissionWebhook

namespace AdmissionWebhook

lemma channelSend_of_outcome {a : GenericAdmissionWebhook}
    {hooks : List ExternalAdmissionHook} {envs : Nat → HookEnv}
    {attr : Attributes} {i : Nat} {e : HookError}
    (hi : hookOutcome a hooks envs attr i = some e)
    (he : e.isCallErr = false) :
    channelSend a hooks envs attr i = some e := by
  simp [channelSend, hi, he]

lemma mem_channelErrors_of_send {a : GenericAdmissionWebhook}
    {hooks : List ExternalAdmissionHook} {envs : Nat → HookEnv}
    {attr : Attributes} {order : List Nat} {i : Nat} {e : HookError}
    (hmem : i ∈ order) (hsend : channelSend a hooks envs attr i = some e) :
    e ∈ channelErrors a hooks envs attr order :=
  List.mem_filterMap.mpr ⟨i, hmem, hsend⟩

lemma Admit_ne_ok_of_channelErrors_ne_nil {a : GenericAdmissionWebhook}
    {hooks : List ExternalAdmissionHook} {envs : Nat → HookEnv}
    {attr : Attributes} {order : List Nat}
    (hne : channelErrors a hooks envs attr order ≠ []) :
    Admit a (.ok hooks) envs attr order ≠ .ok := by
  cases hce : channelErrors a hooks envs attr order with
  | nil => exact absurd hce hne
  | cons x xs => simp [Admit, hce]

/-- C6: when the hook source's `List` fails, `Admit` returns the wrapped
listing error immediately (never nil), and no webhook is matched or
invoked — the invocation trace is empty, so no fan-out occurs. -/
theorem listing_failure_short_circuits
    (a : GenericAdmissionWebhook) (envs : Nat → HookEnv) (attr : Attributes)
    (order : List Nat) (e : String) :
    Admit a (.error e) envs attr order =
      .listError ("failed listing hooks: " ++ e) ∧
    Admit a (.error e) envs attr order ≠ .ok ∧
    AdmitInvocations a (.error e) envs attr = [] := by
  refine ⟨rfl, ?_, rfl⟩
  simp [Admit]

/-- C6 witness at a concrete listing failure. -/
theorem listing_failure_short_circuits_witness :
    Admit plugin0 (.error "boom") envsAB attr0 [0, 1] =
      .listError "failed listing hooks: boom" ∧
    AdmitInvocations plugin0 (.error "boom") envsAB attr0 = [] :=
  ⟨(listing_failure_short_circuits plugin0 envsAB attr0 [0, 1] "boom").1,
   (listing_failure_short_circuits plugin0 envsAB attr0 [0, 1] "boom").2.2⟩

/-- C8: when endpoint resolution and client construction succeed, the
client configuration built by `hookClient` has exactly host and path from
the resolved endpoint, CA data from the webhook's CA bundle, the plugin's
client certificate and key, the constant user agent
`"kube-apiserver-admission"`, and the fixed 30-second timeout. -/
theorem hookClient_builds_fixed_config
    (a : GenericAdmissionWebhook) (h : ExternalAdmissionHook) (env : HookEnv)
    (u : Endpoint) (hres : env.resolve = .ok u)
    (hbuild : env.clientBuildErr = none) :
    (hookClient a h env).1 = .ok
      { host := u.host
        apiPath := u.path
        caData := h.clientConfig.caBundle
        certData := a.clientCert
        keyData := a.clientKey
        userAgent := "kube-apiserver-admission"
        timeoutSeconds := 30 } := by
  simp [hookClient, hres, hbuild]

/-- C8 witness at a concrete webhook and environment. -/
theorem hookClient_builds_fixed_config_witness :
    (hookClient plugin0 hookA (envDeny sA)).1 = .ok
      { host := "10.0.0.1:443"
        apiPath := "/"
        caData := [1]
        certData := [3]
        keyData := [4]
        userAgent := "kube-apiserver-admission"
        timeoutSeconds := 30 } :=
  hookClient_builds_fixed_config plugin0 hookA (envDeny sA) okEndpoint rfl rfl

end AdmissionWebhook

namespace AdmissionWebhook

/-- C5: a webhook is invoked iff at least one of its rules matches the
request — `anyRuleMatches` is the logical OR over the rule list, and the
effect trace of `callHook` is nonempty exactly when some rule matches;
when no rule matches, `callHook` returns nil having neither resolved the
endpoint, nor built a client, nor issued the POST. -/
theorem rule_match_gates_invocation
    (a : GenericAdmissionWebhook) (h : ExternalAdmissionHook) (env : HookEnv)
    (attr : Attributes) :
    (anyRuleMatches h.rules attr = true ↔
      ∃ r ∈ h.rules, ruleMatches r attr = true) ∧
    (anyRuleMatches h.rules attr = false → callHook a h env attr = (none, [])) ∧
    ((callHook a h env attr).2 ≠ [] ↔ anyRuleMatches h.rules attr = true) ∧
    (anyRuleMatches h.rules attr = false →
      Effect.resolveEndpoint ∉ (callHook a h env attr).2 ∧
      Effect.buildClient ∉ (callHook a h env attr).2 ∧
      Effect.post ∉ (callHook a h env attr).2) := by
  have hor : anyRuleMatches h.rules attr = true ↔
      ∃ r ∈ h.rules, ruleMatches r attr = true := by
    simp [anyRuleMatches, List.any_eq_true]
  have hno : anyRuleMatches h.rules attr = false →
      callHook a h env attr = (none, []) := by
    intro hm
    simp [callHook, hm]
  have heff : (callHook a h env attr).2 ≠ [] ↔
      anyRuleMatches h.rules attr = true := by
    cases hm : anyRuleMatches h.rules attr with
    | false => simp [hno hm]
    | true =>
        rcases env with ⟨res, cbe, pst⟩
        cases res with
        | error msg => simp [callHook, hookClient, hm]
        | ok u =>
            cases cbe with
            | some msg => simp [callHook, hookClient, hm]
            | none =>
                cases pst with
                | error msg => simp [callHook, hookClient, hm]
                | ok st =>
                    rcases st with ⟨al, rs⟩
                    cases al <;> cases rs <;>
                      simp [callHook, hookClient, hm]
  refine ⟨hor, hno, heff, ?_⟩
  intro hm
  simp [hno hm]

/-- C5 witness: a webhook with only a non-matching rule is not invoked
and contributes nil, while a matching webhook is invoked. -/
theorem rule_match_gates_invocation_witness :
    anyRuleMatches hookNoMatch.rules attr0 = false ∧
    callHook plugin0 hookNoMatch envAllow attr0 = (none, []) ∧
    ((callHook plugin0 hookA envAllow attr0).2 ≠ []) :=
  ⟨by decide,
   (rule_match_gates_invocation plugin0 hookNoMatch envAllow attr0).2.1
     (by decide),
   ((rule_match_gates_invocation plugin0 hookA envAllow attr0).2.2.1).mpr
     (by decide)⟩

/-- C9: `callHook` returns nil both when no rule matches and when the
response is `Allowed=true`, so the two cases are indistinguishable to the
aggregation in `Admit`; conversely a non-nil return implies the webhook
matched, and implies the response (when the transport succeeded) had
`Allowed=false`. -/
theorem callHook_nil_for_no_match_and_allowed
    (a : GenericAdmissionWebhook) (h : ExternalAdmissionHook) (env : HookEnv)
    (attr : Attributes) (st : AdmissionReviewStatus) :
    (anyRuleMatches h.rules attr = false → (callHook a h env attr).1 = none) ∧
    (anyRuleMatches h.rules attr = true →
      ((hookClient a h env).1).isOk = true →
      env.post = .ok st → st.allowed = true →
      (callHook a h env attr).1 = none) ∧
    (∀ e, (callHook a h env attr).1 = some e →
      anyRuleMatches h.rules attr = true ∧
      ∀ st', env.post = .ok st' → ((hookClient a h env).1).isOk = true →
        st'.allowed = false) := by
  refine ⟨?_, ?_, ?_⟩
  · intro hm
    simp [callHook, hm]
  · intro hm hok hpost hal
    rcases hp : hookClient a h env with ⟨res, effs⟩
    rw [hp] at hok
    cases res with
    | error msg => simp [Except.isOk, Except.toBool] at hok
    | ok cfg => simp [callHook, hm, hp, hpost, hal]
  · intro e he
    cases hm : anyRuleMatches h.rules attr with
    | false =>
        simp [callHook, hm] at he
    | true =>
        refine ⟨rfl, ?_⟩
        intro st' hpost hok
        rcases hp : hookClient a h env with ⟨res, effs⟩
        rw [hp] at hok
        cases res with
        | error msg => simp [Except.isOk, Except.toBool] at hok
        | ok cfg =>
            cases hal : st'.allowed with
            | false => rfl
            | true =>
                rw [callHook] at he
                simp [hm, hp, hpost, hal] at he

/-- C9 witness: nil from a non-matching webhook and nil from an allowing
response coincide. -/
theorem callHook_nil_indistinguishable_witness :
    (callHook plugin0 hookNoMatch envAllow attr0).1 = none ∧
    (callHook plugin0 hookA envAllow attr0).1 = none ∧
    (callHook plugin0 hookNoMatch envAllow attr0).1 =
      (callHook plugin0 hookA envAllow attr0).1 := by
  have h1 := (callHook_nil_for_no_match_and_allowed plugin0 hookNoMatch
    envAllow attr0 { allowed := true, result := none }).1 (by decide)
  have h2 := (callHook_nil_for_no_match_and_allowed plugin0 hookA
    envAllow attr0 { allowed := true, result := none }).2.1
    (by decide) (by decide) rfl rfl
  exact ⟨h1, h2, by rw [h1, h2]⟩

end AdmissionWebhook

namespace AdmissionWebhook

/-- C2: every infrastructure failure (endpoint resolution, client
construction, transport) surfaces from `callHook` as `ErrCallingWebhook`;
such errors are never sent on the error channel, and when every webhook's
outcome is nil or an `ErrCallingWebhook`, `Admit` collects no error and
returns nil. -/
theorem Admit_fail_open
    (a : GenericAdmissionWebhook) (hooks : List ExternalAdmissionHook)
    (envs : Nat → HookEnv) (attr : Attributes) (order : List Nat)
    (hall : ∀ i ∈ order,
      Option.all HookError.isCallErr (hookOutcome a hooks envs attr i) = true) :
    (∀ i n r,
      hookOutcome a hooks envs attr i = some (.errCallingWebhook n r) →
      channelSend a hooks envs attr i = none) ∧
    (∀ h env msg, anyRuleMatches h.rules attr = true →
      env.resolve = .error msg →
      (callHook a h env attr).1 = some (.errCallingWebhook h.name msg)) ∧
    (∀ h env msg u, anyRuleMatches h.rules attr = true →
      env.resolve = .ok u → env.clientBuildErr = some msg →
      (callHook a h env attr).1 = some (.errCallingWebhook h.name msg)) ∧
    (∀ h env msg, anyRuleMatches h.rules attr = true →
      ((hookClient a h env).1).isOk = true → env.post = .error msg →
      (callHook a h env attr).1 = some (.errCallingWebhook h.name msg)) ∧
    channelErrors a hooks envs attr order = [] ∧
    Admit a (.ok hooks) envs attr order = .ok := by
  have hnil : channelErrors a hooks envs attr order = [] := by
    apply List.filterMap_eq_nil_iff.mpr
    intro i hi
    have hcall := hall i hi
    unfold channelSend
    cases hout : hookOutcome a hooks envs attr i with
    | none => rfl
    | some e =>
        rw [hout] at hcall
        simp [Option.all] at hcall
        simp [hcall]
  refine ⟨?_, ?_, ?_, ?_, hnil, ?_⟩
  · intro i n r hi
    simp [channelSend, hi, HookError.isCallErr]
  · intro h env msg hm hres
    simp [callHook, hookClient, hm, hres]
  · intro h env msg u hm hres hbuild
    simp [callHook, hookClient, hm, hres, hbuild]
  · intro h env msg hm hok hpost
    rcases hp : hookClient a h env with ⟨res, effs⟩
    rw [hp] at hok
    cases res with
    | error m => simp [Except.isOk, Except.toBool] at hok
    | ok cfg => simp [callHook, hm, hp, hpost]
  · simp [Admit, hnil]

/-- C2 witness: both configured webhooks fail endpoint resolution, and
`Admit` returns nil. -/
theorem Admit_fail_open_witness :
    Admit plugin0 (.ok [hookA, hookB]) (fun _ => envResolveFail) attr0
      [0, 1] = .ok :=
  (Admit_fail_open plugin0 [hookA, hookB] (fun _ => envResolveFail) attr0
    [0, 1] (by decide)).2.2.2.2.2

/-- C10: each per-webhook task sends at most one value on `errCh`, so the
number of collected errors is at most the number of send slots, and — for
any send order that is a permutation of the hook indices — at most the
channel capacity `len(hooks)`. -/
theorem errCh_sends_bounded_by_capacity
    (a : GenericAdmissionWebhook) (hooks : List ExternalAdmissionHook)
    (envs : Nat → HookEnv) (attr : Attributes) (order : List Nat)
    (hperm : order.Perm (List.range hooks.length)) :
    (∀ i, (Option.toList (channelSend a hooks envs attr i)).length ≤ 1) ∧
    (channelErrors a hooks envs attr order).length ≤ order.length ∧
    (channelErrors a hooks envs attr order).length ≤ errChCapacity hooks := by
  have h1 : (channelErrors a hooks envs attr order).length ≤ order.length :=
    List.length_filterMap_le _ _
  have h2 : order.length = hooks.length := by
    rw [hperm.length_eq, List.length_range]
  refine ⟨?_, h1, ?_⟩
  · intro i
    cases channelSend a hooks envs attr i <;> simp [Option.toList]
  · show (channelErrors a hooks envs attr order).length ≤ hooks.length
    omega

/-- C10 witness at two denying webhooks drained in reversed order. -/
theorem errCh_sends_bounded_by_capacity_witness :
    (channelErrors plugin0 [hookA, hookB] envsAB attr0 [1, 0]).length ≤
      errChCapacity [hookA, hookB] :=
  (errCh_sends_bounded_by_capacity plugin0 [hookA, hookB] envsAB attr0
    [1, 0] (by decide)).2.2

end AdmissionWebhook

namespace AdmissionWebhook

/-- C1 counterexample: over one fixed set of per-webhook outcomes (hook 0
denies with `sA`, hook 1 denies with `sB`), two valid completion orders of
the same two webhooks make `Admit` return different errors, so the
returned error is not determined by configuration order alone. -/
theorem Admit_depends_on_completion_order :
    ([0, 1] : List Nat).Perm (List.range 2) ∧
    ([1, 0] : List Nat).Perm (List.range 2) ∧
    hookOutcome plugin0 [hookA, hookB] envsAB attr0 0 =
      some (.statusError sA) ∧
    hookOutcome plugin0 [hookA, hookB] envsAB attr0 1 =
      some (.statusError sB) ∧
    Admit plugin0 (.ok [hookA, hookB]) envsAB attr0 [0, 1] =
      .hookError (.statusError sA) ∧
    Admit plugin0 (.ok [hookA, hookB]) envsAB attr0 [1, 0] =
      .hookError (.statusError sB) ∧
    AdmitResult.hookError (.statusError sA) ≠
      AdmitResult.hookError (.statusError sB) := by
  decide

/-- C1 amended: `Admit` returns the error of the first webhook, in
completion (channel-send) order, that contributed a non-call-failure
error; webhooks sending earlier win regardless of their configuration
position. -/
theorem Admit_returns_first_sent_error
    (a : GenericAdmissionWebhook) (hooks : List ExternalAdmissionHook)
    (envs : Nat → HookEnv) (attr : Attributes)
    (pre post : List Nat) (i : Nat) (e : HookError)
    (hpre : ∀ j ∈ pre, channelSend a hooks envs attr j = none)
    (hi : hookOutcome a hooks envs attr i = some e)
    (he : e.isCallErr = false) :
    Admit a (.ok hooks) envs attr (pre ++ i :: post) = .hookError e := by
  have hsend := channelSend_of_outcome hi he
  have hmain : channelErrors a hooks envs attr (pre ++ i :: post) =
      e :: post.filterMap (channelSend a hooks envs attr) := by
    unfold channelErrors
    rw [List.filterMap_append, List.filterMap_eq_nil_iff.mpr hpre]
    simp [List.filterMap_cons, hsend]
  simp [Admit, hmain]

/-- C1 amended witness: hook 0 allows, hook 1 denies; with send order
`[0, 1]` the returned error is hook 1's denial. -/
theorem Admit_returns_first_sent_error_witness :
    Admit plugin0 (.ok [hookA, hookB])
      (fun i => if i = 0 then envAllow else envDeny sB) attr0 [0, 1] =
      .hookError (.statusError sB) :=
  Admit_returns_first_sent_error plugin0 [hookA, hookB]
    (fun i => if i = 0 then envAllow else envDeny sB) attr0 [0] [] 1
    (.statusError sB) (by decide) (by decide) (by decide)

/-- C3 counterexample: hook 1 matches, its call succeeds and it denies
with result `sB`, yet `Admit` (send order `[0, 1]`) returns the error
built from hook 0's result `sA`, not from hook 1's — so the returned
error is not built from every such webhook's `Result` regardless of the
other webhooks' outcomes. -/
theorem Admit_denial_not_from_every_denier :
    anyRuleMatches hookB.rules attr0 = true ∧
    ((hookClient plugin0 hookB (envsAB 1)).1).isOk = true ∧
    (envsAB 1).post = .ok { allowed := false, result := some sB } ∧
    hookOutcome plugin0 [hookA, hookB] envsAB attr0 1 =
      some (.statusError sB) ∧
    ([0, 1] : List Nat).Perm (List.range 2) ∧
    Admit plugin0 (.ok [hookA, hookB]) envsAB attr0 [0, 1] =
      .hookError (.statusError sA) ∧
    sA ≠ sB := by
  exact ⟨by decide, by decide, rfl, by decide, by decide, by decide, by decide⟩

/-- C3 amended: when a matching webhook's call succeeds and its response
is `Allowed=false` with a `Result`, `Admit` returns a non-nil error; and
when that webhook is the only one contributing a non-call-failure error,
the returned error is exactly the status error built from its `Result`. -/
theorem Admit_fail_closed_on_result_denial
    (a : GenericAdmissionWebhook) (hooks : List ExternalAdmissionHook)
    (envs : Nat → HookEnv) (attr : Attributes) (order : List Nat)
    (i : Nat) (h : ExternalAdmissionHook) (s : Status)
    (hget : hooks.get? i = some h)
    (hmatch : anyRuleMatches h.rules attr = true)
    (hclient : ((hookClient a h (envs i)).1).isOk = true)
    (hpost : (envs i).post = .ok { allowed := false, result := some s })
    (hmem : i ∈ order) :
    hookOutcome a hooks envs attr i = some (.statusError s) ∧
    Admit a (.ok hooks) envs attr order ≠ .ok ∧
    ((∀ j ∈ order, j = i ∨
        Option.all HookError.isCallErr
          (hookOutcome a hooks envs attr j) = true) →
      Admit a (.ok hooks) envs attr order = .hookError (.statusError s)) := by
  have hout : hookOutcome a hooks envs attr i = some (.statusError s) := by
    unfold hookOutcome
    rw [hget]
    rcases hp : hookClient a h (envs i) with ⟨res, effs⟩
    rw [hp] at hclient
    cases res with
    | error msg => simp [Except.isOk, Except.toBool] at hclient
    | ok cfg => simp [callHook, hmatch, hp, hpost]
  have hsend : channelSend a hooks envs attr i = some (.statusError s) :=
    channelSend_of_outcome hout rfl
  have hne : Admit a (.ok hooks) envs attr order ≠ .ok := by
    apply Admit_ne_ok_of_channelErrors_ne_nil
    intro hnil
    have hmemx := mem_channelErrors_of_send hmem hsend
    rw [hnil] at hmemx
    cases hmemx
  refine ⟨hout, hne, ?_⟩
  intro huniq
  have hall : ∀ x ∈ channelErrors a hooks envs attr order,
      x = .statusError s := by
    intro x hx
    rcases List.mem_filterMap.mp hx with ⟨j, hj, hjx⟩
    rcases huniq j hj with hji | hcall
    · rw [hji, hsend] at hjx
      exact (Option.some.inj hjx).symm
    · unfold channelSend at hjx
      cases hout2 : hookOutcome a hooks envs attr j with
      | none => rw [hout2] at hjx; cases hjx
      | some e2 =>
          rw [hout2] at hjx hcall
          simp [Option.all] at hcall
          simp [hcall] at hjx
  have hmemx := mem_channelErrors_of_send hmem hsend
  cases hce : channelErrors a hooks envs attr order with
  | nil => rw [hce] at hmemx; cases hmemx
  | cons x xs =>
      have hx : x = .statusError s := by
        apply hall
        rw [hce]
        exact List.mem_cons_self x xs
      simp [Admit, hce, hx]

/-- C3 amended witness: a single denying webhook with result `sB`. -/
theorem Admit_fail_closed_on_result_denial_witness :
    hookOutcome plugin0 [hookB] (fun _ => envDeny sB) attr0 0 =
      some (.statusError sB) ∧
    Admit plugin0 (.ok [hookB]) (fun _ => envDeny sB) attr0 [0] ≠ .ok ∧
    Admit plugin0 (.ok [hookB]) (fun _ => envDeny sB) attr0 [0] =
      .hookError (.statusError sB) := by
  have H := Admit_fail_closed_on_result_denial plugin0 [hookB]
    (fun _ => envDeny sB) attr0 [0] 0 hookB sB rfl (by decide) (by decide)
    rfl (by decide)
  exact ⟨H.1, H.2.1, H.2.2 (by decide)⟩

/-- C4: a response with `Allowed=false` and no `Result` makes `callHook`
return the generic "denied the request without explanation" error naming
the webhook; that error is not an `ErrCallingWebhook` (so fail-open does
not drop it) and not a `Result`-based status error, and `Admit`
consequently returns a non-nil error. -/
theorem ambiguous_denial_is_distinct_error
    (a : GenericAdmissionWebhook) (hooks : List ExternalAdmissionHook)
    (envs : Nat → HookEnv) (attr : Attributes) (order : List Nat)
    (i : Nat) (h : ExternalAdmissionHook)
    (hget : hooks.get? i = some h)
    (hmatch : anyRuleMatches h.rules attr = true)
    (hclient : ((hookClient a h (envs i)).1).isOk = true)
    (hpost : (envs i).post = .ok { allowed := false, result := none })
    (hmem : i ∈ order) :
    hookOutcome a hooks envs attr i =
      some (.deniedNoExplanation h.name) ∧
    (HookError.deniedNoExplanation h.name).isCallErr = false ∧
    (∀ n r, HookError.deniedNoExplanation h.name ≠
      .errCallingWebhook n r) ∧
    (∀ s, HookError.deniedNoExplanation h.name ≠ .statusError s) ∧
    (HookError.deniedNoExplanation h.name).message =
      "admission webhook \"" ++ h.name ++
        "\" denied the request without explanation" ∧
    Admit a (.ok hooks) envs attr order ≠ .ok := by
  have hout : hookOutcome a hooks envs attr i =
      some (.deniedNoExplanation h.name) := by
    unfold hookOutcome
    rw [hget]
    rcases hp : hookClient a h (envs i) with ⟨res, effs⟩
    rw [hp] at hclient
    cases res with
    | error msg => simp [Except.isOk, Except.toBool] at hclient
    | ok cfg => simp [callHook, hmatch, hp, hpost]
  have hsend : channelSend a hooks envs attr i =
      some (.deniedNoExplanation h.name) :=
    channelSend_of_outcome hout rfl
  refine ⟨hout, rfl, ?_, ?_, rfl, ?_⟩
  · intro n r hcontra
    cases hcontra
  · intro s hcontra
    cases hcontra
  · apply Admit_ne_ok_of_channelErrors_ne_nil
    intro hnil
    have hmemx := mem_channelErrors_of_send hmem hsend
    rw [hnil] at hmemx
    cases hmemx

/-- C4 witness: one webhook denying without explanation. -/
theorem ambiguous_denial_witness :
    hookOutcome plugin0 [hookA] (fun _ => envNoExplain) attr0 0 =
      some (.deniedNoExplanation "a.example.com") ∧
    Admit plugin0 (.ok [hookA]) (fun _ => envNoExplain) attr0 [0] ≠ .ok := by
  have H := ambiguous_denial_is_distinct_error plugin0 [hookA]
    (fun _ => envNoExplain) attr0 [0] 0 hookA rfl (by decide) (by decide)
    rfl (by decide)
  exact ⟨H.1, H.2.2.2.2.2⟩

end AdmissionWebhook
